import Mathlib

/-!
Verification development for the `bigml/dataset.py` module: a local
re-execution engine for dataset field transformations.  The Python source is
shallowly embedded below: dictionaries become association lists with Python
`dict` update semantics, `None` becomes `Option`, raised exceptions become
`Except.error`, and the external collaborators (field catalog, Flatline
interpreter, API connection) become explicit parameters.
-/

namespace BigML

abbrev FieldId := String
abbrev FieldName := String
abbrev SExpr := String

/-- Modelled from the spec: the external Field Catalog collaborator
(`bigml.fields.Fields`, not part of the analysed sources).  Per the spec it is
an ordered sequence of field descriptors, each with a stable id, a display
name and a declared column position, together with the value-casting rule of
each field; `descriptors` lists the `(id, name)` pairs in declared column
order, and `castFn` is the casting rule keyed by field id. -/
structure Fields (V : Type) where
  descriptors : List (FieldId × FieldName)
  castFn : FieldId → V → V

/-- `sorted_headers`: the names and ids of the fields as ordered in the
original dataset (the loop over `fields_columns` composed with
`fields_by_column_number` and the `name` entry of each descriptor). -/
def sorted_headers (f : Fields V) : List FieldName × List FieldId :=
  (f.descriptors.map Prod.snd, f.descriptors.map Prod.fst)

/-- One entry of the payload's `output_fields` list. -/
structure OutputField where
  generator : SExpr
  names : List FieldName

/-- One transformation record: `field` holds the generator s-expression and
`names` its output column names. -/
structure Transformation where
  field : SExpr
  names : List FieldName

/-- `get_new_fields`: extracts the sexpr and names of the output fields of a
dataset generated by a `new_fields` transformation. -/
def get_new_fields (output_fields : List OutputField) : List Transformation :=
  output_fields.map (fun o => { field := o.generator, names := o.names })

/-- Python `dict` assignment `d[k] = v`: overwrite the value in place when the
key is already present, otherwise append the new pair at the end. -/
def dictInsert (d : List (String × β)) (k : String) (v : β) : List (String × β) :=
  if d.any (fun p => p.1 == k) then
    d.map (fun p => if p.1 == k then (k, v) else p)
  else d ++ [(k, v)]

/-- A Python `dict` built by inserting a sequence of key/value pairs in order
(later pairs overwrite earlier ones with the same key). -/
def pyDict (es : List (String × β)) : List (String × β) :=
  es.foldl (fun d kv => dictInsert d kv.1 kv.2) []

/-- The Flatline interpreter collaborator (`bigml.flatline`, external).
`check` is `evaluate_sexp(expr, fields, True)`, returning the error message
when the dry-run result carries an `error` entry; `apply` is
`eval_and_apply_sexp(expr, fields, input_arrays)`, returning the matrix of
result rows. -/
structure Interp (V : Type) where
  check : SExpr → Fields V → Option String
  apply : SExpr → Fields V → List (List (Option V)) → List (List (Option V))

/-- The origin `Dataset` object built recursively by `add_transformations`;
only its `resource_id` (used by `get_sample`) and its `out_fields` (copied
into the child's `in_fields`) matter to the analysed code. -/
structure OriginNode (V : Type) where
  resource_id : Option String
  out_fields : Option (Fields V)

/-- Local representation of a BigML Dataset (the attributes set by
`Dataset.__init__`). -/
structure Dataset (V : Type) where
  resource_id : Option String
  rows : Option Nat
  origin_dataset : Option (OriginNode V)
  in_fields : Option (Fields V)
  out_fields : Option (Fields V)
  description : Option String
  locale : Option String
  transformations : Option (List Transformation)
  out_header_names : Option (List FieldName)
  in_header_names : Option (List FieldName)
  in_header_ids : Option (List FieldId)

/-- The descriptive payload of a dataset resource, as consumed by
`Dataset.__init__` after `get_resource_dict` and the `object` unwrapping:
`statusCode` is `get_status(dataset)['code']` (none when absent), `fields` is
the catalog constructible from the payload's `fields` entry (none when that
entry is missing), and the remaining entries mirror the dictionary keys the
constructor reads. -/
structure Payload (V : Type) where
  statusCode : Option Int
  fields : Option (Fields V)
  description : String
  locale : Option String
  rows : Option Nat
  output_fields : List OutputField
  origin_dataset : Option String

/-- The API connection collaborator, reduced to the two calls `get_sample`
performs: `create_sample` returns the sample's resource handle when the
creation succeeded (`api.ok`), and `get_sample` returns the
`object.sample.rows` entry of the retrieved sample (none when absent). -/
structure Api (V : Type) where
  create_sample : Option String → Option String
  get_sample : String → String → Option (List (List (Option V)))

/-- `bigml.constants.FINISHED` status code. -/
def FINISHED : Int := 5

/-- `bigml.util.DEFAULT_LOCALE`. -/
def DEFAULT_LOCALE : String := "en_US.UTF-8"

/-- Key resolution step of `Dataset._input_array`: a key already present in
`in_fields.fields` stands; otherwise it is looked up in `fields_by_name`
(`.get(key, key)`, so an unknown key is carried through unresolved). -/
def resolveKey (f : Fields V) (key : String) : String :=
  if f.descriptors.any (fun p => p.1 == key) then key
  else
    match f.descriptors.find? (fun p => p.2 == key) with
    | some p => p.1
    | none => key

/-- Modelled from the spec: the Field Catalog's `cast` operation
(`bigml.util.cast`, not part of the analysed sources) normalizes in place the
value of every entry of the record whose key is a known field id, using that
field's declared casting rule; entries whose key is not a field id are left
untouched. -/
def cast (f : Fields V) (d : List (String × V)) : List (String × V) :=
  d.map (fun kv =>
    (kv.1, if f.descriptors.any (fun p => p.1 == kv.1) then f.castFn kv.1 kv.2 else kv.2))

/-- `Dataset._input_array`, expressed over the node's `in_fields` catalog:
resolve every key of the dict-like input data to a field id when possible,
collect the pairs into a fresh dict, cast the values, then emit one position
per entry of `in_header_ids` holding the value stored for that id, or none
(`None`) when the record supplied no value for that field. -/
def input_array (f : Fields V) (input_data : List (String × V)) : List (Option V) :=
  let new_input_data := input_data.foldl
    (fun d kv => dictInsert d (resolveKey f kv.1) kv.2) []
  let casted := cast f new_input_data
  (sorted_headers f).2.map (fun fid => casted.lookup fid)

/-- The accumulation step of `Dataset._transform`'s inner index loop: for each
row index of the generator's result matrix, extend the accumulated row at
that index (appending a fresh empty row first when the index is new) with the
result row's columns.  Accumulated rows beyond the result matrix are left
untouched. -/
def mergeRows (acc new_input : List (List (Option V))) : List (List (Option V)) :=
  match acc, new_input with
  | acc, [] => acc
  | [], r :: rs => r :: mergeRows [] rs
  | a :: rest, r :: rs => (a ++ r) :: mergeRows rest rs

/-- The loop of `Dataset._transform` over `self.transformations`, carrying the
growing `out_headers` and `new_input_arrays` accumulators.  For each
transformation: dry-run `check` first and raise (`ValueError`) on an error;
otherwise `apply` the expression to the input arrays and fold the result
matrix into the accumulators — note the source extends `out_headers` with
`names` once per result-row index, inside the index loop. -/
def transformGo (interp : Interp V) (f : Fields V)
    (input_arrays : List (List (Option V))) (ts : List Transformation)
    (out_headers : List FieldName) (new_input_arrays : List (List (Option V))) :
    Except String (List FieldName × List (List (Option V))) :=
  match ts with
  | [] => .ok (out_headers, new_input_arrays)
  | t :: rest =>
    match interp.check t.field f with
    | some err => .error err
    | none =>
      let new_input := interp.apply t.field f input_arrays
      transformGo interp f input_arrays rest
        (out_headers ++ (List.replicate new_input.length t.names).flatten)
        (mergeRows new_input_arrays new_input)

/-- `Dataset._transform`: apply the Flatline transformations to input rows
matching the origin dataset structure.  The source's final loop copies
`new_input_arrays` element by element into a fresh `out_arrays`; in a pure
setting that copy is the identity, so the accumulator is returned directly. -/
def transform_rows (interp : Interp V) (f : Fields V) (ts : List Transformation)
    (input_arrays : List (List (Option V))) :
    Except String (List FieldName × List (List (Option V))) :=
  transformGo interp f input_arrays ts [] []

/-- The output assembler of `Dataset.transform`: `dict(zip(out_headers, row))`
— positional pairing truncated at the shorter sequence, later duplicate
header names overwriting earlier ones. -/
def assemble (headers : List FieldName) (row : List (Option V)) :
    List (FieldName × Option V) :=
  pyDict (headers.zip row)

/-- `Dataset.transform`: build one canonical row per input record, run the
transformation engine, and zip the resulting headers with every output row.
When the node has no `in_fields`/`in_header_ids` (never set for this node)
the row building step raises `AttributeError`; when `transformations` is
still `None` the engine's loop raises `TypeError`. -/
def Dataset.transform (interp : Interp V) (node : Dataset V)
    (input_data_list : List (List (String × V))) :
    Except String (List (List (FieldName × Option V))) :=
  match node.in_fields, node.transformations with
  | some f, some ts =>
    match transform_rows interp f ts (input_data_list.map (input_array f)) with
    | .ok (out_headers, out_arrays) =>
      .ok (out_arrays.map (fun row => assemble out_headers row))
    | .error e => .error e
  | none, _ => .error "AttributeError: this Dataset has no in_header_ids"
  | some _, none => .error "TypeError: NoneType object is not iterable"

/-- `Dataset.add_transformations`: fetch and construct the origin dataset
(the `api.get_dataset` call composed with the recursive `Dataset`
construction is abstracted by the `api` resolver argument), copy its
`out_fields` into `in_fields`, and store the new fields as `transformations`
only when the list is non-empty (`if new_fields:`). -/
def add_transformations (api : String → OriginNode V) (node : Dataset V)
    (origin_dataset : String) (new_fields : List Transformation) : Dataset V :=
  let origin := api origin_dataset
  { node with
    origin_dataset := some origin
    in_fields := origin.out_fields
    transformations := if new_fields.isEmpty then node.transformations
                       else some new_fields }

/-- The attribute initialization at the top of `Dataset.__init__`: every
attribute starts as `None` except the resource id. -/
def initialNode (resource_id : String) : Dataset V :=
  { resource_id := some resource_id, rows := none, origin_dataset := none
    in_fields := none, out_fields := none, description := none
    locale := none, transformations := none, out_header_names := none
    in_header_names := none, in_header_ids := none }

/-- `Dataset.__init__` on an already-fetched descriptive payload: all
attributes start as `None`; when the payload carries a `fields` entry and a
`FINISHED` status the schema, metadata and generators are filled in, and when
it declares an origin dataset the lineage is resolved through
`add_transformations` and the input headers are cached.  `sorted_headers` on
a missing origin schema raises (`AttributeError`), modelled as an error. -/
def dataset_init (api : String → OriginNode V) (resource_id : String)
    (p : Payload V) : Except String (Dataset V) :=
  let node : Dataset V := initialNode resource_id
  match p.fields with
  | none => .ok node
  | some fs =>
    if p.statusCode = some FINISHED then
      let node :=
        { node with
          out_fields := some fs
          out_header_names := some (sorted_headers fs).1
          description := some p.description
          locale := some (p.locale.getD DEFAULT_LOCALE)
          rows := some (p.rows.getD 0) }
      let new_fields := get_new_fields p.output_fields
      match p.origin_dataset with
      | none => .ok node
      | some ref =>
        let node := add_transformations api node ref new_fields
        match node.in_fields with
        | some inf =>
          .ok { node with
                in_header_names := some (sorted_headers inf).1
                in_header_ids := some (sorted_headers inf).2 }
        | none => .error "AttributeError: NoneType has no fields_columns"
    else .ok node

/-- `Dataset.get_sample` as invoked on the origin node: create a sample of
the resource, and when creation succeeded retrieve its rows; otherwise return
an empty list. -/
def OriginNode.get_sample (api : Api V) (node : OriginNode V)
    (rows_number : Nat) : Option (List (List (Option V))) :=
  match api.create_sample node.resource_id with
  | some res => api.get_sample res ("rows=" ++ toString rows_number)
  | none => some []

/-- `Dataset.get_inputs_sample`: a sample of data representing the origin
dataset; raises `ValueError` on a node with no origin. -/
def Dataset.get_inputs_sample (api : Api V) (node : Dataset V)
    (rows_number : Nat) : Except String (Option (List (List (Option V)))) :=
  match node.origin_dataset with
  | none => .error "Only datasets that are generated from other datasets can use this method."
  | some origin => .ok (origin.get_sample api rows_number)

/-- Specification-side description of the value an input record supplies for
a given field id: the value of the last record entry whose key resolves (by
id or by display name) to that id, if any. -/
def supplied_value (f : Fields V) (record : List (String × V)) (fid : FieldId) :
    Option V :=
  (record.reverse.find? (fun kv => resolveKey f kv.1 == fid)).map Prod.snd

/-! ### Association-list lemmas for the Python dict embedding -/

theorem lookup_cons (k a : String) (b : β) (es : List (String × β)) :
    ((a, b) :: es).lookup k = if k == a then some b else es.lookup k := by
  cases h : k == a <;> simp [List.lookup, h]

theorem lookup_append (d e : List (String × β)) (k : String) :
    (d ++ e).lookup k = (d.lookup k).or (e.lookup k) := by
  induction d with
  | nil => simp
  | cons p rest ih =>
    rcases p with ⟨a, b⟩
    rw [List.cons_append, lookup_cons, lookup_cons]
    cases h : k == a <;> simp [ih]

/-- String `==` returning false is symmetric. -/
theorem beq_symm_false (a b : String) (h : (a == b) = false) : (b == a) = false := by
  cases hh : b == a
  · rfl
  · rw [beq_iff_eq] at hh
    subst hh
    simp at h

theorem lookup_none_of_any_eq_false (d : List (String × β)) (k : String)
    (h : d.any (fun p => p.1 == k) = false) : d.lookup k = none := by
  induction d with
  | nil => rfl
  | cons p rest ih =>
    rcases p with ⟨a, b⟩
    rw [List.any_cons, Bool.or_eq_false_iff] at h
    rw [lookup_cons, beq_symm_false a k h.1]
    simpa using ih h.2

theorem lookup_overwrite_eq (d : List (String × β)) (k : String) (v : β)
    (h : d.any (fun p => p.1 == k) = true) :
    (d.map (fun p => if p.1 == k then (k, v) else p)).lookup k = some v := by
  induction d with
  | nil => simp at h
  | cons p rest ih =>
    rcases p with ⟨a, b⟩
    rw [List.any_cons] at h
    cases ha : a == k with
    | true =>
      rw [beq_iff_eq] at ha
      subst ha
      simp only [List.map_cons, beq_self_eq_true, if_true]
      rw [lookup_cons, beq_self_eq_true]
      simp
    | false =>
      rw [ha, Bool.false_or] at h
      simp only [List.map_cons, ha, Bool.false_eq_true, if_false]
      rw [lookup_cons, beq_symm_false a k ha]
      simpa using ih h

theorem lookup_overwrite_ne (d : List (String × β)) (k k1 : String) (v : β)
    (h : (k == k1) = false) :
    (d.map (fun p => if p.1 == k1 then (k1, v) else p)).lookup k = d.lookup k := by
  induction d with
  | nil => rfl
  | cons p rest ih =>
    rcases p with ⟨a, b⟩
    cases ha : a == k1 with
    | true =>
      rw [beq_iff_eq] at ha
      subst ha
      simp only [List.map_cons, beq_self_eq_true, if_true]
      rw [lookup_cons, lookup_cons, ih, h]
      simp
    | false =>
      simp only [List.map_cons, ha, Bool.false_eq_true, if_false]
      rw [lookup_cons, lookup_cons, ih]

theorem lookup_dictInsert (d : List (String × β)) (k k1 : String) (v : β) :
    (dictInsert d k1 v).lookup k = if k == k1 then some v else d.lookup k := by
  unfold dictInsert
  cases hany : d.any (fun p => p.1 == k1) with
  | true =>
    simp only [if_true]
    cases hk : k == k1 with
    | true =>
      rw [beq_iff_eq] at hk
      subst hk
      rw [lookup_overwrite_eq d k v hany]
      simp
    | false =>
      rw [lookup_overwrite_ne d k k1 v hk]
      simp [hk]
  | false =>
    simp only [Bool.false_eq_true, if_false]
    rw [lookup_append]
    cases hk : k == k1 with
    | true =>
      rw [beq_iff_eq] at hk
      subst hk
      rw [lookup_none_of_any_eq_false d k hany, lookup_cons, beq_self_eq_true]
      simp
    | false =>
      rw [lookup_cons, hk]
      simp

/-- Looking a key up in a dict built by folding `dictInsert` over a list of
entries (with keys transformed by `g`) finds the value of the last entry
whose transformed key matches, falling back to the initial dict. -/
theorem lookup_foldl_insert (g : String → String) (es : List (String × γ)) :
    ∀ (d : List (String × γ)) (k : String),
      (es.foldl (fun d kv => dictInsert d (g kv.1) kv.2) d).lookup k =
        ((es.reverse.find? (fun kv => g kv.1 == k)).map Prod.snd).or (d.lookup k) := by
  induction es with
  | nil => intro d k; simp
  | cons e rest ih =>
    intro d k
    rw [List.foldl_cons, ih, List.reverse_cons, List.find?_append]
    cases h : rest.reverse.find? (fun kv => g kv.1 == k) with
    | some kv => simp
    | none =>
      rw [lookup_dictInsert]
      cases h2 : (g e.1 == k) with
      | true =>
        have hk : (k == g e.1) = true := by
          rw [beq_iff_eq] at h2 ⊢
          exact h2.symm
        rw [hk]
        simp [List.find?_cons, h2]
      | false =>
        have hk : (k == g e.1) = false := beq_symm_false _ _ h2
        rw [hk]
        simp [List.find?_cons, h2]

theorem lookup_pyDict (es : List (String × γ)) (k : String) :
    (pyDict es).lookup k = (es.reverse.find? (fun kv => kv.1 == k)).map Prod.snd := by
  have := lookup_foldl_insert (fun s => s) es [] k
  simpa [pyDict] using this

/-- Looking up a key after a value-only transformation of every entry. -/
theorem lookup_map_entry (l : List (String × β)) (g : String → β → γ) (k : String) :
    (l.map (fun kv => (kv.1, g kv.1 kv.2))).lookup k = (l.lookup k).map (g k) := by
  induction l with
  | nil => rfl
  | cons p rest ih =>
    rcases p with ⟨a, b⟩
    simp only [List.map_cons]
    rw [lookup_cons, lookup_cons]
    cases h : k == a with
    | true =>
      rw [beq_iff_eq] at h
      subst h
      simp
    | false => simp [ih]

theorem dictInsert_length (d : List (String × β)) (k : String) (v : β) :
    (dictInsert d k v).length ≤ d.length + 1 := by
  unfold dictInsert
  split <;> simp

theorem pyDict_length_le (es : List (String × γ)) :
    ∀ d : List (String × γ),
      (es.foldl (fun d kv => dictInsert d kv.1 kv.2) d).length ≤ d.length + es.length := by
  induction es with
  | nil => intro d; simp
  | cons e rest ih =>
    intro d
    rw [List.foldl_cons]
    calc (rest.foldl (fun d kv => dictInsert d kv.1 kv.2) (dictInsert d e.1 e.2)).length
        ≤ (dictInsert d e.1 e.2).length + rest.length := ih _
      _ ≤ d.length + 1 + rest.length := by
          have := dictInsert_length d e.1 e.2
          omega
      _ = d.length + (e :: rest).length := by simp; omega

/-! ### Row builder characterization -/

theorem lookup_cast (f : Fields V) (d : List (String × V)) (k : String) :
    (cast f d).lookup k = (d.lookup k).map
      (fun v => if f.descriptors.any (fun p => p.1 == k) then f.castFn k v else v) := by
  unfold cast
  exact lookup_map_entry d
    (fun key v => if f.descriptors.any (fun p => p.1 == key) then f.castFn key v else v) k

/-- The row the builder produces, position by position: the value supplied for
each header id, then cast. -/
theorem input_array_as_supplied (f : Fields V) (record : List (String × V)) :
    input_array f record = (sorted_headers f).2.map (fun fid =>
      (supplied_value f record fid).map
        (fun v => if f.descriptors.any (fun p => p.1 == fid) then f.castFn fid v else v)) := by
  simp only [input_array]
  apply List.map_congr_left
  intro fid _
  rw [lookup_cast, lookup_foldl_insert (resolveKey f) record]
  simp [supplied_value]

theorem input_array_length (f : Fields V) (record : List (String × V)) :
    (input_array f record).length = f.descriptors.length := by
  rw [input_array_as_supplied]
  simp [sorted_headers]

theorem find?_append_middle_of_neg (p : α → Bool) (l1 l2 : List α) (e : α)
    (h : p e = false) : (l1 ++ e :: l2).find? p = (l1 ++ l2).find? p := by
  rw [List.find?_append, List.find?_append, List.find?_cons_of_neg _ (by simp [h])]

theorem supplied_value_middle (f : Fields V) (pre post : List (String × V))
    (k : String) (v : V) (fid : FieldId)
    (hne : (resolveKey f k == fid) = false) :
    supplied_value f (pre ++ (k, v) :: post) fid = supplied_value f (pre ++ post) fid := by
  unfold supplied_value
  rw [List.reverse_append, List.reverse_append, List.reverse_cons, List.append_assoc,
    List.singleton_append]
  rw [find?_append_middle_of_neg (fun kv => resolveKey f kv.1 == fid)
    post.reverse pre.reverse (k, v) hne]

theorem resolveKey_unknown (f : Fields V) (k : String)
    (hk : ∀ p ∈ f.descriptors, p.1 ≠ k ∧ p.2 ≠ k) :
    resolveKey f k = k := by
  unfold resolveKey
  have h1 : f.descriptors.any (fun p => p.1 == k) = false := by
    rw [List.any_eq_false]
    intro p hp
    simp [(hk p hp).1]
  have h2 : f.descriptors.find? (fun p => p.2 == k) = none := by
    rw [List.find?_eq_none]
    intro p hp
    simp [(hk p hp).2]
  rw [h1, h2]
  simp

/-! ### Transformation engine lemmas -/

theorem transformGo_error_of_check (interp : Interp V) (f : Fields V)
    (rows : List (List (Option V))) :
    ∀ (ts : List Transformation) (headers : List FieldName)
      (acc : List (List (Option V))),
      (∃ t ∈ ts, (interp.check t.field f).isSome) →
      ∃ e, transformGo interp f rows ts headers acc = .error e := by
  intro ts
  induction ts with
  | nil =>
    intro headers acc h
    rcases h with ⟨t, ht, _⟩
    simp at ht
  | cons t rest ih =>
    intro headers acc h
    cases hc : interp.check t.field f with
    | some e => exact ⟨e, by simp [transformGo, hc]⟩
    | none =>
      rcases h with ⟨t2, ht2, hsome⟩
      rcases List.mem_cons.mp ht2 with rfl | hmem
      · rw [hc] at hsome
        simp at hsome
      · rcases ih (headers ++ (List.replicate (interp.apply t.field f rows).length
            t.names).flatten) (mergeRows acc (interp.apply t.field f rows))
            ⟨t2, hmem, hsome⟩ with ⟨e, he⟩
        refine ⟨e, ?_⟩
        simp only [transformGo, hc]
        exact he

theorem transformGo_single_row (interp : Interp V) (f : Fields V)
    (rows : List (List (Option V))) :
    ∀ (ts : List Transformation),
      (∀ t ∈ ts, ∃ r, interp.apply t.field f rows = [r] ∧ r.length = t.names.length) →
      ∀ (headers : List FieldName) (acc : List (List (Option V))),
      ((acc = [] ∧ headers = []) ∨ ∃ a, acc = [a] ∧ a.length = headers.length) →
      ∀ (hs : List FieldName) (outRows : List (List (Option V))),
      transformGo interp f rows ts headers acc = .ok (hs, outRows) →
      ∀ r ∈ outRows, r.length = hs.length := by
  intro ts
  induction ts with
  | nil =>
    intro _ headers acc hinv hs outRows heq r hr
    simp only [transformGo, Except.ok.injEq, Prod.mk.injEq] at heq
    rcases heq with ⟨rfl, rfl⟩
    rcases hinv with ⟨rfl, rfl⟩ | ⟨a, rfl, hlen⟩
    · simp at hr
    · simp at hr
      subst hr
      exact hlen
  | cons t rest ih =>
    intro h headers acc hinv hs outRows heq r hr
    rcases h t (by simp) with ⟨r0, happ, hlen0⟩
    cases hc : interp.check t.field f with
    | some e => simp [transformGo, hc] at heq
    | none =>
      simp only [transformGo, hc, happ] at heq
      have hrest : ∀ t2 ∈ rest, ∃ r2, interp.apply t2.field f rows = [r2] ∧
          r2.length = t2.names.length := fun t2 ht2 => h t2 (List.mem_cons_of_mem _ ht2)
      rcases hinv with ⟨rfl, rfl⟩ | ⟨a, rfl, hlen⟩
      · refine ih hrest _ _ ?_ hs outRows (by simpa [mergeRows] using heq) r hr
        exact Or.inr ⟨r0, rfl, by simp [hlen0]⟩
      · refine ih hrest _ _ ?_ hs outRows (by simpa [mergeRows] using heq) r hr
        exact Or.inr ⟨a ++ r0, rfl, by simp [hlen, hlen0]⟩

/-- A node whose `transformations` attribute is still `None` cannot run
`transform`: the engine's loop iterates the attribute unconditionally, and
the row builder needs the input headers. -/
theorem transform_none_transformations (interp : Interp V) (node : Dataset V)
    (records : List (List (String × V))) (h : node.transformations = none) :
    Dataset.transform interp node records =
      .error "TypeError: NoneType object is not iterable" ∨
    Dataset.transform interp node records =
      .error "AttributeError: this Dataset has no in_header_ids" := by
  unfold Dataset.transform
  rw [h]
  cases node.in_fields with
  | none => exact Or.inr rfl
  | some f => exact Or.inl rfl

theorem zip_eq_zip_take_min (l1 : List α) :
    ∀ l2 : List γ, l1.zip l2 =
      (l1.take (min l1.length l2.length)).zip (l2.take (min l1.length l2.length)) := by
  induction l1 with
  | nil => intro l2; simp
  | cons a t1 ih =>
    intro l2
    cases l2 with
    | nil => simp
    | cons b t2 =>
      simp only [List.zip_cons_cons, List.length_cons]
      rw [show min (t1.length + 1) (t2.length + 1) = min t1.length t2.length + 1 by omega]
      simp only [List.take_succ_cons, List.zip_cons_cons]
      rw [← ih t2]

/-! ### Concrete fixtures for the closed witnesses -/

def exFields : Fields Nat :=
  { descriptors := [("000000", "a"), ("000001", "b")]
    castFn := fun _ v => v }

def castFields : Fields Nat :=
  { descriptors := [("000000", "a"), ("000001", "b")]
    castFn := fun _ v => v + 1 }

def exT : Transformation := { field := "(+ (field a) (field b))", names := ["sum"] }

def okInterp : Interp Nat :=
  { check := fun _ _ => none
    apply := fun _ _ _ => [[some 5]] }

def errInterp : Interp Nat :=
  { check := fun _ _ => some "Error evaluating expression"
    apply := fun _ _ _ => [] }

def twoRowInterp : Interp Nat :=
  { check := fun _ _ => none
    apply := fun _ _ _ => [[some 5], [some 10]] }

def exApi : Api Nat :=
  { create_sample := fun _ => none
    get_sample := fun _ _ => none }

def exOrigin : String → OriginNode Nat := fun rid =>
  { resource_id := some rid, out_fields := some exFields }

def baseNode : Dataset Nat :=
  { resource_id := some "dataset/000", rows := some 0, origin_dataset := none
    in_fields := some exFields, out_fields := some exFields
    description := some "", locale := some DEFAULT_LOCALE
    transformations := none
    out_header_names := some (sorted_headers exFields).1
    in_header_names := some (sorted_headers exFields).1
    in_header_ids := some (sorted_headers exFields).2 }

def nodeEmptyGen : Dataset Nat := { baseNode with transformations := some [] }

def nodeOneGen : Dataset Nat := { baseNode with transformations := some [exT] }

def unfinishedPayload : Payload Nat :=
  { statusCode := some 1, fields := some exFields, description := "d"
    locale := none, rows := some 2, output_fields := [], origin_dataset := none }

/-! ### Claims -/

/-- C1: if the dataset node's generators list is empty, `transform` succeeds
and the transformation engine step returns `([], [])`, so `transform`
returns an empty list of output records regardless of the content of the
input records. -/
theorem empty_generators_transform (interp : Interp V) (node : Dataset V)
    (records : List (List (String × V))) (input_rows : List (List (Option V)))
    (f : Fields V) (hf : node.in_fields = some f)
    (ht : node.transformations = some []) :
    transform_rows interp f [] input_rows = .ok ([], []) ∧
    Dataset.transform interp node records = .ok [] := by
  constructor
  · rfl
  · unfold Dataset.transform
    rw [hf, ht]
    rfl

theorem empty_generators_transform_witness :
    transform_rows okInterp exFields [] ([] : List (List (Option Nat))) = .ok ([], []) ∧
    Dataset.transform okInterp nodeEmptyGen [[("a", 1)]] = .ok [] :=
  empty_generators_transform okInterp nodeEmptyGen [[("a", 1)]] [] exFields rfl rfl

/-- C5: `get_inputs_sample` on a node whose origin is null raises a usage
error instead of returning data, for every `rows_number` argument. -/
theorem no_origin_guard (api : Api V) (node : Dataset V) (rows_number : Nat)
    (h : node.origin_dataset = none) :
    Dataset.get_inputs_sample api node rows_number =
      .error "Only datasets that are generated from other datasets can use this method." := by
  unfold Dataset.get_inputs_sample
  rw [h]

theorem no_origin_guard_witness :
    Dataset.get_inputs_sample exApi baseNode 32 =
      .error "Only datasets that are generated from other datasets can use this method." :=
  no_origin_guard exApi baseNode 32 rfl

/-- C7: for every descriptive payload whose status is not finished,
construction succeeds and produces a node with null schemas and no
generators, and any attempt to transform rows with that node fails. -/
theorem unfinished_payload_node (api : String → OriginNode V) (rid : String)
    (p : Payload V) (interp : Interp V) (records : List (List (String × V)))
    (h : p.statusCode ≠ some FINISHED) :
    dataset_init api rid p = .ok (initialNode rid) ∧
    (initialNode rid : Dataset V).out_fields = none ∧
    (initialNode rid : Dataset V).in_fields = none ∧
    (initialNode rid : Dataset V).transformations = none ∧
    Dataset.transform interp (initialNode rid) records =
      .error "AttributeError: this Dataset has no in_header_ids" := by
  refine ⟨?_, rfl, rfl, rfl, rfl⟩
  unfold dataset_init
  cases p.fields with
  | none => rfl
  | some fs =>
    simp only [if_neg h]

theorem unfinished_payload_node_witness :
    dataset_init exOrigin "dataset/001" unfinishedPayload = .ok (initialNode "dataset/001") ∧
    (initialNode "dataset/001" : Dataset Nat).out_fields = none ∧
    (initialNode "dataset/001" : Dataset Nat).in_fields = none ∧
    (initialNode "dataset/001" : Dataset Nat).transformations = none ∧
    Dataset.transform okInterp (initialNode "dataset/001") [[("a", 1)]] =
      .error "AttributeError: this Dataset has no in_header_ids" :=
  unfinished_payload_node exOrigin "dataset/001" unfinishedPayload okInterp [[("a", 1)]]
    (by decide)

/-- C8: the output assembler pairs headers with row values positionally, and
with duplicate header names the value at the last (highest-index) occurrence
of a name is the one present in the assembled record. -/
theorem assemble_last_write_wins (headers : List FieldName) (row : List (Option V))
    (key : String) :
    (assemble headers row).lookup key =
      ((headers.zip row).reverse.find? (fun p => p.1 == key)).map Prod.snd :=
  lookup_pyDict (headers.zip row) key

/-- C10: the assembled record has at most `min(len(headers), len(row))`
entries, and the positional pairing silently drops the excess headers or row
values: assembling the truncated lists yields the same record. -/
theorem assemble_truncates (headers : List FieldName) (row : List (Option V)) :
    (assemble headers row).length ≤ min headers.length row.length ∧
    assemble headers row =
      assemble (headers.take (min headers.length row.length))
        (row.take (min headers.length row.length)) := by
  constructor
  · have h1 := pyDict_length_le (headers.zip row) []
    have h2 := List.length_zip headers row
    rw [inf_eq_min] at h2
    simp only [List.length_nil, Nat.zero_add] at h1
    calc (assemble headers row).length ≤ (headers.zip row).length := h1
      _ = min headers.length row.length := h2
  · unfold assemble
    rw [zip_eq_zip_take_min headers row]

/-- C2 counterexample: a generator whose apply step emits two result rows
(the source appends the generator's names to `out_headers` once per result
row, but each output row receives the names' worth of columns only once), so
with two input rows the headers list has twice the length of every output
row. -/
theorem header_row_agreement_cex :
    transform_rows twoRowInterp exFields [exT]
        [[some 2, some 3], [some 4, some 6]] =
      .ok (["sum", "sum"], [[some 5], [some 10]]) ∧
    ¬ (∀ r ∈ [[some (5 : Nat)], [some 10]],
        r.length = (["sum", "sum"] : List FieldName).length) := by
  refine ⟨rfl, ?_⟩
  decide

/-- C2 (amended): when every generator's apply step returns exactly one
result row whose length equals that generator's number of output names,
every row of `transform_rows`'s output has length equal to the output
headers list. -/
theorem header_row_agreement_single_row (interp : Interp V) (f : Fields V)
    (ts : List Transformation) (input_rows : List (List (Option V)))
    (h : ∀ t ∈ ts, ∃ r, interp.apply t.field f input_rows = [r] ∧
      r.length = t.names.length)
    (hs : List FieldName) (outRows : List (List (Option V)))
    (heq : transform_rows interp f ts input_rows = .ok (hs, outRows)) :
    ∀ r ∈ outRows, r.length = hs.length :=
  transformGo_single_row interp f input_rows ts h [] [] (Or.inl ⟨rfl, rfl⟩)
    hs outRows heq

theorem header_row_agreement_single_row_witness :
    ([some (5 : Nat)] : List (Option Nat)).length =
      (["sum"] : List FieldName).length :=
  header_row_agreement_single_row okInterp exFields [exT] [[some 2, some 3]]
    (by
      intro t ht
      rw [List.mem_singleton] at ht
      subst ht
      exact ⟨[some 5], rfl, rfl⟩)
    ["sum"] [[some 5]] rfl [some 5] (by simp)

/-- C3: if the dry-run check of any generator's expression reports an error,
`transform` raises an expression error and yields no output records at all
(never a partial list). -/
theorem check_error_aborts_transform (interp : Interp V) (node : Dataset V)
    (records : List (List (String × V))) (f : Fields V)
    (ts : List Transformation) (hf : node.in_fields = some f)
    (ht : node.transformations = some ts)
    (h : ∃ t ∈ ts, (interp.check t.field f).isSome) :
    ∃ e, Dataset.transform interp node records = .error e := by
  rcases transformGo_error_of_check interp f (records.map (input_array f))
    ts [] [] h with ⟨e, he⟩
  refine ⟨e, ?_⟩
  unfold Dataset.transform transform_rows
  rw [hf, ht]
  simp [he]

theorem check_error_aborts_transform_witness :
    (∃ t ∈ [exT], (errInterp.check t.field exFields).isSome) ∧
    ∃ e, Dataset.transform errInterp nodeOneGen [[("a", 1)]] = .error e :=
  ⟨⟨exT, by simp, rfl⟩,
   check_error_aborts_transform errInterp nodeOneGen [[("a", 1)]] exFields
     [exT] rfl rfl ⟨exT, by simp, rfl⟩⟩

/-- C4: the built row has exactly `len(schema)` positions; position `i`
holds the casted value supplied for the field occupying declared column `i`
of the schema, or null when the record supplies no value for that field. -/
theorem input_array_positions (f : Fields V) (record : List (String × V)) :
    (input_array f record).length = f.descriptors.length ∧
    ∀ (i : Nat) (fid : FieldId), (sorted_headers f).2.get? i = some fid →
      (input_array f record).get? i =
        some ((supplied_value f record fid).map (f.castFn fid)) := by
  refine ⟨input_array_length f record, ?_⟩
  intro i fid hid
  rw [input_array_as_supplied, List.get?_map, hid]
  have hmem : fid ∈ f.descriptors.map Prod.fst := List.get?_mem hid
  have hany : f.descriptors.any (fun p => p.1 == fid) = true := by
    rw [List.any_eq_true]
    rcases List.mem_map.mp hmem with ⟨p, hp, hfst⟩
    refine ⟨p, hp, ?_⟩
    rw [hfst]
    exact beq_self_eq_true fid
  simp [hany]

theorem input_array_positions_witness :
    (input_array castFields [("a", 2)]).length = castFields.descriptors.length ∧
    (input_array castFields [("a", 2)]).get? 0 =
      some ((supplied_value castFields [("a", 2)] "000000").map
        (castFields.castFn "000000")) :=
  ⟨(input_array_positions castFields [("a", 2)]).1,
   (input_array_positions castFields [("a", 2)]).2 0 "000000" rfl⟩

/-- C6: a record key matching neither a field id nor a display name never
makes the row builder raise; it contributes nothing, and the built row
equals the one built from the record with that entry removed. -/
theorem unknown_key_ignored (f : Fields V) (pre post : List (String × V))
    (k : String) (v : V)
    (hk : ∀ p ∈ f.descriptors, p.1 ≠ k ∧ p.2 ≠ k) :
    input_array f (pre ++ (k, v) :: post) = input_array f (pre ++ post) := by
  rw [input_array_as_supplied, input_array_as_supplied]
  apply List.map_congr_left
  intro fid hfid
  have hfid2 : fid ∈ f.descriptors.map Prod.fst := hfid
  have hne2 : fid ≠ k := by
    rcases List.mem_map.mp hfid2 with ⟨p, hp, hfst⟩
    rw [← hfst]
    exact (hk p hp).1
  have hne : (resolveKey f k == fid) = false := by
    rw [resolveKey_unknown f k hk]
    cases hh : k == fid with
    | true =>
      rw [beq_iff_eq] at hh
      exact (hne2 hh.symm).elim
    | false => rfl
  rw [supplied_value_middle f pre post k v fid hne]

theorem unknown_key_ignored_witness :
    input_array exFields ([("a", 1)] ++ ("zz", 9) :: []) =
      input_array exFields ([("a", 1)] ++ []) :=
  unknown_key_ignored exFields [("a", 1)] [] "zz" 9 (by decide)

/-- What construction can store in `transformations`: nothing, or — when the
payload declares an origin and a non-empty `output_fields` — the extracted
new fields list. -/
theorem dataset_init_transformations (api : String → OriginNode V)
    (rid : String) (p : Payload V) (node : Dataset V)
    (hnode : dataset_init api rid p = .ok node) :
    node.transformations = none ∨
      (p.origin_dataset ≠ none ∧ p.output_fields ≠ [] ∧
        node.transformations = some (get_new_fields p.output_fields)) := by
  unfold dataset_init at hnode
  cases hp : p.fields with
  | none =>
    simp only [hp] at hnode
    injection hnode with hnode
    subst hnode
    exact Or.inl rfl
  | some fs =>
    simp only [hp] at hnode
    by_cases hst : p.statusCode = some FINISHED
    · rw [if_pos hst] at hnode
      cases ho : p.origin_dataset with
      | none =>
        simp only [ho] at hnode
        injection hnode with hnode
        subst hnode
        exact Or.inl rfl
      | some ref =>
        simp only [ho, add_transformations] at hnode
        cases hof : (api ref).out_fields with
        | none =>
          rw [hof] at hnode
          simp at hnode
        | some inf =>
          rw [hof] at hnode
          injection hnode with hnode
          subst hnode
          cases hempty : (get_new_fields p.output_fields).isEmpty with
          | true =>
            refine Or.inl ?_
            simp [hempty, initialNode]
          | false =>
            refine Or.inr ⟨by simp, ?_, by simp [hempty]⟩
            intro h0
            rw [h0] at hempty
            simp [get_new_fields] at hempty
    · rw [if_neg hst] at hnode
      injection hnode with hnode
      subst hnode
      exact Or.inl rfl

/-- C9: construction stores either no transformations or a non-empty list,
never an empty one; the field stays null when the payload declares no origin
dataset or an empty `output_fields`; and `transform` iterates the field
unconditionally, failing on every node where it is still null. -/
theorem transformations_never_empty_list (api : String → OriginNode V)
    (rid : String) (p : Payload V) (interp : Interp V)
    (records : List (List (String × V))) (node : Dataset V)
    (hnode : dataset_init api rid p = .ok node) :
    (node.transformations = none ∨
      ∃ l, l ≠ [] ∧ node.transformations = some l) ∧
    ((p.origin_dataset = none ∨ p.output_fields = []) →
      node.transformations = none) ∧
    (node.transformations = none →
      Dataset.transform interp node records =
        .error "TypeError: NoneType object is not iterable" ∨
      Dataset.transform interp node records =
        .error "AttributeError: this Dataset has no in_header_ids") := by
  have hcore := dataset_init_transformations api rid p node hnode
  refine ⟨?_, ?_, fun hn => transform_none_transformations interp node records hn⟩
  · rcases hcore with hnone | ⟨_, hne, hsome⟩
    · exact Or.inl hnone
    · refine Or.inr ⟨get_new_fields p.output_fields, ?_, hsome⟩
      intro h0
      apply hne
      cases hf2 : p.output_fields with
      | nil => rfl
      | cons a l =>
        rw [hf2] at h0
        simp [get_new_fields] at h0
  · intro hcond
    rcases hcore with hnone | ⟨ho, hfe, _⟩
    · exact hnone
    · rcases hcond with h1 | h2
      · exact (ho h1).elim
      · exact (hfe h2).elim

def rootPayload : Payload Nat :=
  { statusCode := some 5, fields := some exFields, description := "d"
    locale := none, rows := some 2, output_fields := [], origin_dataset := none }

def rootNode : Dataset Nat :=
  { (initialNode "dataset/002" : Dataset Nat) with
    out_fields := some exFields
    out_header_names := some (sorted_headers exFields).1
    description := some "d", locale := some DEFAULT_LOCALE, rows := some 2 }

theorem transformations_never_empty_list_witness :
    (rootNode.transformations = none ∨
      ∃ l, l ≠ [] ∧ rootNode.transformations = some l) ∧
    rootNode.transformations = none ∧
    (Dataset.transform okInterp rootNode [] =
        .error "TypeError: NoneType object is not iterable" ∨
      Dataset.transform okInterp rootNode [] =
        .error "AttributeError: this Dataset has no in_header_ids") :=
  ⟨(transformations_never_empty_list exOrigin "dataset/002" rootPayload okInterp
      [] rootNode rfl).1,
   (transformations_never_empty_list exOrigin "dataset/002" rootPayload okInterp
      [] rootNode rfl).2.1 (Or.inl rfl),
   (transformations_never_empty_list exOrigin "dataset/002" rootPayload okInterp
      [] rootNode rfl).2.2 rfl⟩

end BigML
